import Mathlib

/-!
Verification development for the trust-and-responsibility propagation engine:
sponsor-graph connectedness, safety tiers with decay, credit flow, and
cross-branch escalation/contract handling.  Each TypeScript source function is
shallowly embedded as a Lean definition over exact arithmetic (ℚ where the
source computes with rational constants only, ℝ where it uses `Math.exp` or
fractional powers), with JavaScript `Map`/object lookups modelled as
association lists or total functions defaulting to the absent value.
-/

/-- Accumulator recursion behind `dedupFirst`: `seen` is the list of
elements already emitted. -/
def dedupFirstAux {α : Type} [DecidableEq α] (seen : List α) :
    List α → List α
  | [] => []
  | a :: l =>
    if a ∈ seen then dedupFirstAux seen l
    else a :: dedupFirstAux (seen ++ [a]) l

/-- First-occurrence deduplication, modelling the JavaScript idiom
`Array.from(new Set(xs))`, which keeps the first occurrence of each element
in encounter order. -/
def dedupFirst {α : Type} [DecidableEq α] (l : List α) : List α :=
  dedupFirstAux [] l

namespace Connectedness

/-- A sponsor graph, modelling `Map<string, string[]>` where `graph.get(v)`
followed by `|| []` yields the neighbour list (absent keys behave as `[]`). -/
abbrev Graph := String → List String

/-- Result record of a connectedness computation
(`ConnectednessResult` in `connectedness.ts`); `shortestPath = ⊤` models the
JavaScript value `Infinity`. -/
structure ConnectednessResult where
  score : ℚ
  pathCount : ℕ
  shortestPath : WithTop ℕ
  diversityScore : ℚ
  confidence : ℚ
  deriving DecidableEq

/-- Options for the connectedness computation (`ConnectednessOptions` merged
with its defaults, so every field is present). -/
structure ConnectednessOptions where
  maxDepth : ℕ
  decayFactor : ℚ
  minPathDiversity : ℚ
  confidenceThreshold : ℚ
  deriving DecidableEq

/-- The `DEFAULT_OPTIONS` record of `connectedness.ts`. -/
def DEFAULT_OPTIONS : ConnectednessOptions :=
  { maxDepth := 6, decayFactor := 1/3, minPathDiversity := 0.7,
    confidenceThreshold := 0.6 }

/-- The recursive `dfs` closure inside `findWeightedPaths`, with fuel
`maxDepth + 1 - depth`: at fuel `0` the `depth > maxDepth` guard fires; the
guard `visited.has(current) && current !== target` of the source is provably
never true (the `visited` set always equals the nodes of `path` other than
`current`, and `!path.includes(neighbor)` already excludes them), so it is
not modelled. -/
def dfsPaths (graph : Graph) (target : String) :
    ℕ → String → List String → List (List String)
  | 0, _, _ => []
  | fuel + 1, current, path =>
    if current = target ∧ 1 < path.length then [path]
    else (graph current).flatMap (fun n =>
      if n ∈ path then [] else dfsPaths graph target fuel n (path ++ [n]))

/-- Stable insertion of a path into a list sorted by ascending length
(used to model the JavaScript stable `sort((a, b) => a.length - b.length)`). -/
def insertByLen (p : List String) : List (List String) → List (List String)
  | [] => [p]
  | q :: qs => if p.length ≤ q.length then p :: q :: qs else q :: insertByLen p qs

/-- Stable sort by ascending path length. -/
def sortByLen : List (List String) → List (List String)
  | [] => []
  | p :: ps => insertByLen p (sortByLen ps)

/-- The `findWeightedPaths` function of `connectedness.ts`: enumerate all
simple paths from `source` to `target` with at most `maxDepth` edges, then
deduplicate (`new Set(paths.map(JSON.stringify))`) and sort by length. -/
def findWeightedPaths (source target : String) (graph : Graph)
    (maxDepth : ℕ) : List (List String) :=
  sortByLen (dedupFirst (dfsPaths graph target (maxDepth + 1) source [source]))

/-- A weighted path entry, as produced by
`paths.map(path => ({ path, weight, length }))`. -/
structure WeightedPath where
  path : List String
  weight : ℚ
  length : ℕ
  deriving DecidableEq

/-- Interior-node overlap of one ordered path pair, the body of the inner
`reduce` of `calculatePathDiversity`: nodes of `pathA` at positions strictly
between the endpoints that also occur in `pathB`, divided by the larger
path length. -/
def pairOverlap (a b : WeightedPath) : ℚ :=
  (((a.path.drop 1).dropLast.filter (fun node => node ∈ b.path)).length : ℚ) /
    (max a.path.length b.path.length : ℕ)

/-- The nested `reduce` of `calculatePathDiversity`: sum of `pairOverlap`
over all ordered pairs `(i, j)` with `i < j`. -/
def totalOverlapOf : List WeightedPath → ℚ
  | [] => 0
  | a :: rest => ((rest.map (pairOverlap a)).sum) + totalOverlapOf rest

/-- The `calculatePathDiversity` function of `connectedness.ts`. -/
def calculatePathDiversity (weightedPaths : List WeightedPath) : ℚ :=
  if weightedPaths.length ≤ 1 then 1
  else
    let totalOverlap := totalOverlapOf weightedPaths
    let maxPossibleOverlap : ℚ :=
      (weightedPaths.length * (weightedPaths.length - 1) : ℚ) / 2
    let overlapFrac := if 0 < maxPossibleOverlap
      then totalOverlap / maxPossibleOverlap else 0
    max 0 (1 - overlapFrac)

/-- The `calculateConfidence` function of `connectedness.ts`. -/
def calculateConfidence (weightedPaths : List WeightedPath)
    (diversityScore : ℚ) : ℚ :=
  if weightedPaths = [] then 0
  else
    let pathCountFactor : ℚ := min 1 ((weightedPaths.length : ℚ) / 3)
    let diversityFactor := diversityScore
    let lengths : List ℚ := weightedPaths.map (fun wp => (wp.length : ℚ))
    let avgLength : ℚ := lengths.sum / (lengths.length : ℚ)
    let lengthVariance : ℚ :=
      ((lengths.map (fun len => (len - avgLength) ^ 2)).sum) / (lengths.length : ℚ)
    let consistencyFactor : ℚ := 1 / (1 + lengthVariance)
    pathCountFactor * 0.4 + diversityFactor * 0.4 + consistencyFactor * 0.2

/-- Minimum of a list of extended naturals, modelling
`Math.min(...paths.map(p => p.length))` (the list is non-empty at the call
site; the `[]` case is unreachable there). -/
def listMinLen (l : List (List String)) : WithTop ℕ :=
  match l with
  | [] => ⊤
  | p :: ps => (ps.map (fun q => (q.length : WithTop ℕ))).foldl min (p.length : WithTop ℕ)

/-- The `calculatePairwiseConnectedness` function of `connectedness.ts`. -/
def calculatePairwiseConnectedness (sourceHER targetHER : String)
    (sponsorGraph : Graph) (opts : ConnectednessOptions) : ConnectednessResult :=
  if targetHER ∈ sponsorGraph sourceHER then
    { score := 1, pathCount := 1, shortestPath := 1, diversityScore := 1,
      confidence := 1 }
  else
    let paths := findWeightedPaths sourceHER targetHER sponsorGraph opts.maxDepth
    if paths = [] then
      { score := 0, pathCount := 0, shortestPath := ⊤, diversityScore := 0,
        confidence := 1 }
    else
      let weightedPaths := paths.map (fun path =>
        { path := path, weight := opts.decayFactor ^ (path.length - 1),
          length := path.length : WeightedPath })
      let diversityScore := calculatePathDiversity weightedPaths
      let totalWeight := (weightedPaths.map (fun wp => wp.weight)).sum
      let normalizedScore := min 1 totalWeight
      let confidence := calculateConfidence weightedPaths diversityScore
      { score := normalizedScore, pathCount := paths.length,
        shortestPath := listMinLen paths, diversityScore := diversityScore,
        confidence := confidence }

/-- Maximum of a non-empty rational list, modelling `Math.max(...xs)`
(the `[]` case is unreachable at the call sites). -/
def listMaxQ (l : List ℚ) : ℚ :=
  match l with
  | [] => 0
  | a :: t => t.foldl max a

/-- Minimum of a non-empty list of extended naturals, modelling
`Math.min(...xs)` over shortest-path values. -/
def listMinT (l : List (WithTop ℕ)) : WithTop ℕ :=
  match l with
  | [] => ⊤
  | a :: t => t.foldl min a

/-- The `calculateUnionConnectedness` function of `connectedness.ts`
(max-based union over a target set with confidence filtering). -/
def calculateUnionConnectedness (sourceHER : String) (targetSet : List String)
    (sponsorGraph : Graph) (opts : ConnectednessOptions) : ConnectednessResult :=
  let pairwiseResults := targetSet.map (fun target =>
    calculatePairwiseConnectedness sourceHER target sponsorGraph opts)
  let validResults := pairwiseResults.filter
    (fun r => opts.confidenceThreshold ≤ r.confidence)
  if validResults = [] then
    { score := 0, pathCount := 0, shortestPath := ⊤, diversityScore := 0,
      confidence := 0 }
  else
    let maxScore := listMaxQ (validResults.map (fun r => r.score))
    let totalPaths := (validResults.map (fun r => r.pathCount)).sum
    let shortestPath := listMinT (validResults.map (fun r => r.shortestPath))
    let weightedDiversitySum :=
      (validResults.map (fun r => r.diversityScore * r.confidence)).sum
    let totalConfidence := (validResults.map (fun r => r.confidence)).sum
    let avgDiversity := if 0 < totalConfidence
      then weightedDiversitySum / totalConfidence else 0
    let overallConfidence :=
      ((validResults.map (fun r => r.confidence)).sum) / validResults.length
    { score := maxScore, pathCount := totalPaths, shortestPath := shortestPath,
      diversityScore := avgDiversity, confidence := overallConfidence }

/-- One iteration of the inner loop of `buildSponsorGraph`: add the forward
edge `sponsor → herCID` and the backward edge `herCID → sponsor`, each only
if not already present. -/
def addSponsorEdge (g : Graph) (herCID sponsor : String) : Graph :=
  let g1 : Graph := fun x =>
    if x = sponsor then
      (if herCID ∈ g sponsor then g sponsor else g sponsor ++ [herCID])
    else g x
  fun x =>
    if x = herCID then
      (if sponsor ∈ g1 herCID then g1 herCID else g1 herCID ++ [sponsor])
    else g1 x

/-- The `buildSponsorGraph` function of `connectedness.ts`, with the input
`Map<string, { sponsors: string[] }>` modelled as an association list in
iteration order and the output map as a total function defaulting to `[]`. -/
def buildSponsorGraph (herData : List (String × List String)) : Graph :=
  herData.foldl
    (fun g entry => entry.2.foldl (fun g sponsor => addSponsorEdge g entry.1 sponsor) g)
    (fun _ => [])

/-- Pointwise extension of a graph: every neighbour list of `g` is a prefix
of the corresponding list of `g'` (new edges are appended, none removed or
reordered). -/
def Extends (g g' : Graph) : Prop :=
  ∀ v, ∃ s, g' v = g v ++ s

/-- Add a single directed edge `u → v` by appending to `u`'s neighbour
list. -/
def addEdge (g : Graph) (u v : String) : Graph :=
  fun x => if x = u then g x ++ [v] else g x

/-- Add the chain of edges `u → w₁ → ⋯ → w_k → B`, the way an additional
independent path with interior nodes `ws` between `u` and `B` extends the
graph. -/
def addChain (g : Graph) : String → List String → String → Graph
  | u, [], B => addEdge g u B
  | u, w :: ws, B => addChain (addEdge g u w) w ws B

end Connectedness

namespace SafetyTiers

/-- The `SafetyTier` enum of `safety_tiers.ts`. -/
inductive SafetyTier where
  | NONE
  | LOW
  | MEDIUM
  | HIGH
  | CRITICAL
  deriving DecidableEq

/-- Numeric value of a tier, as declared in the enum (`NONE = 0` … `CRITICAL = 4`). -/
def SafetyTier.toNat : SafetyTier → ℕ
  | .NONE => 0
  | .LOW => 1
  | .MEDIUM => 2
  | .HIGH => 3
  | .CRITICAL => 4

/-- The `FrictionType` enum of `safety_tiers.ts`. -/
inductive FrictionType where
  | RATE_LIMIT
  | VERIFICATION
  | COOLDOWN
  | VISIBILITY_LIMIT
  | INTERACTION_LIMIT
  | REVIEW_REQUIRED
  | WARNING_LABEL
  | SUPPORTER_REQUIRED
  deriving DecidableEq

/-- The `DecayTimer` record, with `startTime` as milliseconds since the epoch
(the value of `Date.getTime()`). -/
structure DecayTimer where
  halfLifeHours : ℝ
  startTime : ℝ
  initialImpact : ℝ
  currentMultiplier : ℝ

/-- The `SafetyTierResult` record of `safety_tiers.ts`. -/
structure SafetyTierResult where
  impactScore : ℝ
  tier : SafetyTier
  frictions : List FrictionType
  decayTimer : Option DecayTimer
  appealable : Bool

/-- Tier thresholds (the `tierThresholds` field of the options). -/
structure TierThresholds where
  low : ℝ
  medium : ℝ
  high : ℝ
  critical : ℝ

/-- The default tier thresholds of `DEFAULT_OPTIONS` in `safety_tiers.ts`. -/
noncomputable def defaultTierThresholds : TierThresholds :=
  { low := 0.1, medium := 0.3, high := 0.6, critical := 0.85 }

/-- The `determineTier` function of `safety_tiers.ts`. -/
noncomputable def determineTier (impactScore : ℝ) (thresholds : TierThresholds) :
    SafetyTier :=
  if thresholds.critical ≤ impactScore then .CRITICAL
  else if thresholds.high ≤ impactScore then .HIGH
  else if thresholds.medium ≤ impactScore then .MEDIUM
  else if thresholds.low ≤ impactScore then .LOW
  else .NONE

/-- The `determineFrictions` function of `safety_tiers.ts`: the `switch` with
fallthrough accumulates each tier's frictions plus all lower tiers' ones, and
`Array.from(new Set(...))` removes duplicates keeping first occurrences. -/
def determineFrictions (tier : SafetyTier) (impactScore : ℝ) : List FrictionType :=
  let accumulated : List FrictionType :=
    match tier with
    | .CRITICAL =>
      [.INTERACTION_LIMIT, .REVIEW_REQUIRED, .SUPPORTER_REQUIRED,
       .VISIBILITY_LIMIT, .WARNING_LABEL, .VERIFICATION, .COOLDOWN,
       .RATE_LIMIT, .WARNING_LABEL, .RATE_LIMIT]
    | .HIGH => [.VERIFICATION, .COOLDOWN, .RATE_LIMIT, .WARNING_LABEL, .RATE_LIMIT]
    | .MEDIUM => [.RATE_LIMIT, .WARNING_LABEL, .RATE_LIMIT]
    | .LOW => [.RATE_LIMIT]
    | .NONE => []
  dedupFirst accumulated

/-- The `updateDecayedImpact` function of `safety_tiers.ts`, with the impure
`Date.now()` read modelled as an explicit parameter `now` (milliseconds). -/
noncomputable def updateDecayedImpact (result : SafetyTierResult) (now : ℝ) :
    SafetyTierResult :=
  match result.decayTimer with
  | none => result
  | some timer =>
    let hoursElapsed := (now - timer.startTime) / (1000 * 60 * 60)
    let decayMultiplier := (0.5 : ℝ) ^ (hoursElapsed / timer.halfLifeHours)
    let currentImpact := timer.initialImpact * decayMultiplier
    let newTier := determineTier currentImpact defaultTierThresholds
    let newFrictions := determineFrictions newTier currentImpact
    { result with
      impactScore := currentImpact
      tier := newTier
      frictions := newFrictions
      decayTimer := some { timer with currentMultiplier := decayMultiplier } }

end SafetyTiers

namespace CreditFlow

/-- The `CreditParameters` record of `credit_flow.ts`. -/
structure CreditParameters where
  C_max : ℚ
  I_max_per_epoch : ℚ
  S_max_per_epoch : ℚ
  beta0 : ℚ
  beta1 : ℚ
  theta : ℚ
  c_local : ℚ
  c_xbranch : ℚ
  c_global : ℚ
  H_c_days : ℚ
  delta : ℚ
  deriving DecidableEq

/-- The `EarnableAction` record (`type` kept as its literal string tag). -/
structure EarnableAction where
  type : String
  base_award : ℚ
  description : String
  deriving DecidableEq

/-- The `EarnEvent` record of `credit_flow.ts`. -/
structure EarnEvent where
  helper : String
  action : EarnableAction
  subject_set : List String
  evidence_confidence : ℚ
  diversity_factor : ℚ
  proximity_score : ℚ
  branch_avg_credits : ℚ
  timestamp : ℚ
  witnesses : List String
  deriving DecidableEq

/-- The `BranchApproval` record of `credit_flow.ts`. -/
structure BranchApproval where
  branch_id : String
  voters : List String
  votes : List ℚ
  participation_rate : ℚ
  path_diversity_score : ℚ
  trimmed_mean : ℚ
  approved : Bool
  deriving DecidableEq

/-- The `SpendEvent` record of `credit_flow.ts` (`spend_type` kept as its
literal string tag). -/
structure SpendEvent where
  requester : String
  spend_type : String
  amount : ℚ
  purpose : String
  branch_approval : BranchApproval
  timestamp : ℚ
  deriving DecidableEq

/-- The `CreditBalance` record; the running balance is a real number because
decay multiplies by a fractional power. -/
structure CreditBalance where
  human : String
  balance : ℝ
  last_updated_epoch : ℚ
  earn_history : List EarnEvent
  spend_history : List SpendEvent

/-- The logistic `sigmoid` helper of `credit_flow.ts`. -/
noncomputable def sigmoid (x : ℝ) : ℝ :=
  1 / (1 + Real.exp (-x))

/-- The `calculateCreditAward` function of `credit_flow.ts`:
`ΔCR = w_a × k × ρ × (β₀ + β₁ × C(h,S)) × σ(θ − CR̄/C_max)`, floored at 0. -/
noncomputable def calculateCreditAward (event : EarnEvent)
    (params : CreditParameters) : ℝ :=
  let base_award : ℝ := (event.action.base_award : ℝ)
  let confidence : ℝ := ((max 0 (min 1 event.evidence_confidence) : ℚ) : ℝ)
  let diversity : ℝ := ((max 0 (min 1 event.diversity_factor) : ℚ) : ℝ)
  let proximity_factor : ℝ :=
    (params.beta0 : ℝ) +
      (params.beta1 : ℝ) * ((max 0 (min 1 event.proximity_score) : ℚ) : ℝ)
  let scarcity_input : ℝ :=
    ((params.theta - event.branch_avg_credits / params.C_max : ℚ) : ℝ)
  let scarcity_bonus := sigmoid scarcity_input
  let award := base_award * confidence * diversity * proximity_factor * scarcity_bonus
  max 0 award

/-- The `applyCreditDecay` function of `credit_flow.ts`:
`CR × δ^(Δdays / H_c)` clamped to `[0, C_max]`. -/
noncomputable def applyCreditDecay (balance : CreditBalance)
    (current_epoch epoch_duration_hours : ℚ) (params : CreditParameters) : ℝ :=
  let epochs_elapsed := current_epoch - balance.last_updated_epoch
  let hours_elapsed := epochs_elapsed * epoch_duration_hours
  let days_elapsed := hours_elapsed / 24
  let decay_multiplier : ℝ :=
    (params.delta : ℝ) ^ (((days_elapsed / params.H_c_days : ℚ) : ℝ))
  let decayed_balance := balance.balance * decay_multiplier
  max 0 (min (params.C_max : ℝ) decayed_balance)

/-- The probabilistic-OR `calculateUnionConnectedness` function of
`credit_flow.ts`: `C(h,S) = 1 − ∏(1 − C(h,s))`, with the pairwise map
modelled as an association list keyed by the string `helper ++ "->" ++ s`. -/
def calculateUnionConnectedness (helper : String) (subject_set : List String)
    (pairwise_connectedness : List (String × ℚ)) : ℚ :=
  if subject_set = [] then 0
  else
    let product := subject_set.foldl
      (fun product subject =>
        let pairwise :=
          (List.lookup (helper ++ "->" ++ subject) pairwise_connectedness).getD 0
        product * (1 - max 0 (min 1 pairwise)))
      1
    max 0 (min 1 (1 - product))

/-- Result record of `validateEarnEvent` (`{ valid, reason? }`). -/
structure ValidationResult where
  valid : Bool
  reason : Option String
  deriving DecidableEq

/-- The `validateEarnEvent` function of `credit_flow.ts`. -/
def validateEarnEvent (event : EarnEvent) (params : CreditParameters) :
    ValidationResult :=
  if event.evidence_confidence ≤ 0 then
    { valid := false, reason := some "Evidence confidence must be positive" }
  else if event.diversity_factor ≤ 0 then
    { valid := false, reason := some "Diversity factor must be positive" }
  else if event.witnesses.length = 0 then
    { valid := false, reason := some "At least one witness required" }
  else if event.subject_set.length = 0 then
    { valid := false, reason := some "Subject set cannot be empty" }
  else if event.helper ∈ event.subject_set then
    { valid := false,
      reason := some "Helper cannot earn credits for helping themselves" }
  else
    { valid := true, reason := none }

/-- The earnings `reduce` inside `updateCreditBalance`: invalid events are
skipped, valid ones contribute their award. -/
noncomputable def totalEarningsOf (earn_events : List EarnEvent)
    (params : CreditParameters) : ℝ :=
  earn_events.foldl
    (fun sum event =>
      if (validateEarnEvent event params).valid then
        sum + calculateCreditAward event params
      else sum)
    0

/-- The `updateCreditBalance` function of `credit_flow.ts`. -/
noncomputable def updateCreditBalance (balance : CreditBalance)
    (earn_events : List EarnEvent) (spend_events : List SpendEvent)
    (current_epoch epoch_duration_hours : ℚ) (params : CreditParameters) :
    CreditBalance :=
  let decayed_balance :=
    applyCreditDecay balance current_epoch epoch_duration_hours params
  let total_earnings := totalEarningsOf earn_events params
  let total_spends : ℚ := (spend_events.map (fun e => e.amount)).sum
  let new_balance :=
    max 0 (min (params.C_max : ℝ)
      (decayed_balance + total_earnings - (total_spends : ℝ)))
  { balance with
    balance := new_balance
    last_updated_epoch := current_epoch
    earn_history := balance.earn_history ++ earn_events
    spend_history := balance.spend_history ++ spend_events }

/-- The `getDefaultCreditParameters` function of `credit_flow.ts`. -/
def getDefaultCreditParameters : CreditParameters :=
  { C_max := 100, I_max_per_epoch := 0, S_max_per_epoch := 0,
    beta0 := 0.6, beta1 := 0.4, theta := 0.5,
    c_local := 2, c_xbranch := 5, c_global := 10,
    H_c_days := 180, delta := 0.5 }

end CreditFlow

namespace CrossBranch

/-- The `Branch` record of the cross-branch escalation source. -/
structure Branch where
  id : String
  members : List String
  avg_credits : ℚ
  diversity_score : ℚ
  open_needs_count : ℚ
  current_load : ℚ
  deriving DecidableEq

/-- The `EscalationParameters` record. -/
structure EscalationParameters where
  gamma1 : ℚ
  gamma2 : ℚ
  gamma3 : ℚ
  Theta_esc : ℚ
  lambda1 : ℚ
  lambda2 : ℚ
  lambda3 : ℚ
  max_neighbors : ℕ
  theta : ℚ
  deriving DecidableEq

/-- The `Issue` record. -/
structure Issue where
  id : String
  subject_set : List String
  severity : ℚ
  confidence : ℚ
  reporter : String
  focal_branch : String
  deriving DecidableEq

/-- The `EscalationScore` record. -/
structure EscalationScore where
  branch_id : String
  issue_id : String
  local_impact : ℚ
  need_pressure : ℚ
  diversity_penalty : ℚ
  total_score : ℚ
  triggered : Bool
  deriving DecidableEq

/-- The `calculateEscalationScore` function:
`E(B₀,X) = γ₁×I_B₀(X) + γ₂×(OpenNeeds/|B|) + γ₃×(1−ρ_B₀)`, with the
member-to-subject connectedness map modelled as an association list keyed by
`member ++ "->" ++ subject`. -/
def calculateEscalationScore (branch : Branch) (issue : Issue)
    (connectedness_map : List (String × ℚ)) (params : EscalationParameters) :
    EscalationScore :=
  let total_member_impact := branch.members.foldl
    (fun total member =>
      let member_connectedness := issue.subject_set.foldl
        (fun mc subject =>
          max mc ((List.lookup (member ++ "->" ++ subject) connectedness_map).getD 0))
        0
      total + member_connectedness * issue.severity * issue.confidence)
    0
  let local_impact := if 0 < branch.members.length
    then total_member_impact / branch.members.length else 0
  let need_pressure := if 0 < branch.members.length
    then branch.open_needs_count / branch.members.length else 0
  let diversity_penalty := 1 - max 0 (min 1 branch.diversity_score)
  let weighted_impact := params.gamma1 * local_impact
  let weighted_need := params.gamma2 * need_pressure
  let weighted_diversity := params.gamma3 * diversity_penalty
  let total_score := weighted_impact + weighted_need + weighted_diversity
  let triggered := decide (params.Theta_esc ≤ total_score)
  { branch_id := branch.id, issue_id := issue.id,
    local_impact := weighted_impact, need_pressure := weighted_need,
    diversity_penalty := weighted_diversity, total_score := total_score,
    triggered := triggered }

/-- The `getDefaultEscalationParameters` function. -/
def getDefaultEscalationParameters : EscalationParameters :=
  { gamma1 := 0.6, gamma2 := 0.3, gamma3 := 0.1, Theta_esc := 0.35,
    lambda1 := 0.6, lambda2 := 0.3, lambda3 := 0.1,
    max_neighbors := 5, theta := 0.5 }

/-- Contract status values; the handler also assigns `'disputed'`, so it is
included alongside the four statuses declared on `CrossBranchContract`. -/
inductive ContractStatus where
  | proposed
  | active
  | completed
  | failed
  | disputed
  deriving DecidableEq

/-- The `CrossBranchContract` record, with the `signatures` object modelled
as an association list in property-insertion order. -/
structure CrossBranchContract where
  contract_id : String
  requesting_branch : String
  helping_branches : List String
  issue_id : String
  scope : List String
  tasks : List String
  timebox_hours : ℚ
  evidence_requirements : String
  credit_rewards : ℚ
  status : ContractStatus
  signatures : List (String × String)
  created_at : ℚ
  expires_at : ℚ
  deriving DecidableEq

/-- The `createCrossBranchContract` function, with the impure
`generateContractId` and `Date.now()` reads modelled as explicit parameters
`contract_id` and `now`. -/
def createCrossBranchContract (contract_id : String)
    (requesting_branch : String) (helping_branches : List String)
    (issue : Issue) (tasks : List String) (timebox_hours : ℚ)
    (credit_rewards : ℚ) (now : ℚ) : CrossBranchContract :=
  { contract_id := contract_id
    requesting_branch := requesting_branch
    helping_branches := helping_branches
    issue_id := issue.id
    scope := issue.subject_set
    tasks := tasks
    timebox_hours := timebox_hours
    evidence_requirements := "Survivor-approved outcome with witness attestations"
    credit_rewards := credit_rewards
    status := .proposed
    signatures := []
    created_at := now
    expires_at := now + timebox_hours * 60 * 60 * 1000 }

/-- The contract actions accepted by the `POST /credit/contract` handler. -/
inductive ContractAction where
  | approve
  | reject
  | complete
  | dispute
  deriving DecidableEq

/-- JavaScript object property assignment `signatures[branch_id] = sig`:
overwrite in place if the key exists, otherwise append. -/
def setSignature (sigs : List (String × String)) (branch_id sig : String) :
    List (String × String) :=
  if sigs.any (fun p => p.1 = branch_id) then
    sigs.map (fun p => if p.1 = branch_id then (branch_id, sig) else p)
  else sigs ++ [(branch_id, sig)]

/-- JavaScript truthiness of `signatures[branch_id]`: present and not the
empty string. -/
def signedBy (sigs : List (String × String)) (branch_id : String) : Bool :=
  match List.lookup branch_id sigs with
  | some s => s ≠ ""
  | none => false

/-- The `all_signed` check of the `approve` arm:
`helping_branches.every(id => signatures[id])`. -/
def allSigned (helping_branches : List String)
    (sigs : List (String × String)) : Bool :=
  helping_branches.all (fun branch_id => signedBy sigs branch_id)

/-- The pure core of the `handleBranchContract` endpoint (missing completion
evidence is `none`): given the already-fetched contract and an authorized
request, apply the `switch (request.action)` and return the updated contract,
or an error response that leaves the stored contract unchanged.  The
surrounding I/O (signature validation, contract lookup, persistence) is out
of scope of the embedding. -/
def handleBranchContract (contract : CrossBranchContract)
    (action : ContractAction) (branch_id signature : String)
    (completion_evidence : Option (List String)) :
    Except String CrossBranchContract :=
  match action with
  | .approve =>
    let signatures := setSignature contract.signatures branch_id signature
    let all_signed := allSigned contract.helping_branches signatures
    let status := if all_signed then ContractStatus.active else contract.status
    .ok { contract with signatures := signatures, status := status }
  | .reject =>
    .ok { contract with status := .failed }
  | .complete =>
    match completion_evidence with
    | some evidence =>
      if 0 < evidence.length then
        .ok { contract with status := .completed }
      else .error "Completion evidence required"
    | none => .error "Completion evidence required"
  | .dispute =>
    .ok { contract with status := .disputed }

/-- The branch `B_0` of the `workedExample` function (10 members, average
credits 8, diversity 0.3, 5 open needs). -/
def workedExampleBranch : Branch :=
  { id := "branch_b0"
    members := ["member_0", "member_1", "member_2", "member_3", "member_4",
                "member_5", "member_6", "member_7", "member_8", "member_9"]
    avg_credits := 8
    diversity_score := 0.3
    open_needs_count := 5
    current_load := 2 }

/-- The issue `X` of the `workedExample` function (severity 0.7,
confidence 0.8). -/
def workedExampleIssue : Issue :=
  { id := "issue_x"
    subject_set := ["subject_1", "subject_2"]
    severity := 0.7
    confidence := 0.8
    reporter := "reporter_1"
    focal_branch := "branch_b0" }

/-- The mock connectedness map of the `workedExample` function: every
member–subject pair maps to 0.4, with keys in the same nested iteration
order as the source loops. -/
def workedExampleConnectednessMap : List (String × ℚ) :=
  workedExampleBranch.members.flatMap (fun member =>
    workedExampleIssue.subject_set.map (fun subject =>
      (member ++ "->" ++ subject, (0.4 : ℚ))))

/-- The escalation score computed in the `workedExample` function. -/
def workedExampleEscalationScore : EscalationScore :=
  calculateEscalationScore workedExampleBranch workedExampleIssue
    workedExampleConnectednessMap getDefaultEscalationParameters

end CrossBranch

theorem mem_dedupFirstAux {α : Type} [DecidableEq α] (a : α) (l : List α) :
    ∀ seen : List α, a ∈ dedupFirstAux seen l ↔ a ∈ l ∧ a ∉ seen := by
  induction l with
  | nil => intro seen; simp [dedupFirstAux]
  | cons b l ih =>
    intro seen
    simp only [dedupFirstAux]
    by_cases hb : b ∈ seen
    · rw [if_pos hb, ih]
      simp only [List.mem_cons]
      constructor
      · rintro ⟨h1, h2⟩
        exact ⟨Or.inr h1, h2⟩
      · rintro ⟨h1, h2⟩
        rcases h1 with rfl | h1
        · exact absurd hb h2
        · exact ⟨h1, h2⟩
    · rw [if_neg hb]
      simp only [List.mem_cons, ih, List.mem_append, List.mem_singleton]
      constructor
      · rintro (rfl | ⟨h1, h2⟩)
        · exact ⟨Or.inl rfl, hb⟩
        · exact ⟨Or.inr h1, fun hs => h2 (Or.inl hs)⟩
      · rintro ⟨rfl | h1, h2⟩
        · exact Or.inl rfl
        · by_cases hab : a = b
          · exact Or.inl hab
          · refine Or.inr ⟨h1, fun hor => ?_⟩
            rcases hor with hs | hs
            · exact h2 hs
            · rcases hs with hs | hs
              · exact hab hs
              · exact (List.not_mem_nil a) hs

theorem nodup_dedupFirstAux {α : Type} [DecidableEq α] (l : List α) :
    ∀ seen : List α, (dedupFirstAux seen l).Nodup := by
  induction l with
  | nil => intro seen; simp [dedupFirstAux]
  | cons b l ih =>
    intro seen
    simp only [dedupFirstAux]
    by_cases hb : b ∈ seen
    · rw [if_pos hb]; exact ih seen
    · rw [if_neg hb]
      refine List.nodup_cons.mpr ⟨?_, ih _⟩
      intro hmem
      rw [mem_dedupFirstAux] at hmem
      exact hmem.2 (List.mem_append.mpr (Or.inr (List.mem_singleton.mpr rfl)))

theorem mem_dedupFirst {α : Type} [DecidableEq α] (a : α) (l : List α) :
    a ∈ dedupFirst l ↔ a ∈ l := by
  rw [dedupFirst, mem_dedupFirstAux]
  simp

theorem nodup_dedupFirst {α : Type} [DecidableEq α] (l : List α) :
    (dedupFirst l).Nodup :=
  nodup_dedupFirstAux l []

namespace Connectedness

theorem insertByLen_perm (p : List String) (l : List (List String)) :
    (insertByLen p l).Perm (p :: l) := by
  induction l with
  | nil => simp [insertByLen]
  | cons q qs ih =>
    simp only [insertByLen]
    by_cases h : p.length ≤ q.length
    · rw [if_pos h]
    · rw [if_neg h]
      exact (ih.cons q).trans (List.Perm.swap p q qs)

theorem sortByLen_perm (l : List (List String)) : (sortByLen l).Perm l := by
  induction l with
  | nil => simp [sortByLen]
  | cons p ps ih =>
    exact (insertByLen_perm p (sortByLen ps)).trans (ih.cons p)

theorem mem_sortByLen (a : List String) (l : List (List String)) :
    a ∈ sortByLen l ↔ a ∈ l :=
  (sortByLen_perm l).mem_iff

theorem nodup_sortByLen (l : List (List String)) (h : l.Nodup) :
    (sortByLen l).Nodup :=
  ((sortByLen_perm l).nodup_iff).mpr h

theorem nodup_findWeightedPaths (source target : String) (graph : Graph)
    (maxDepth : ℕ) : (findWeightedPaths source target graph maxDepth).Nodup :=
  nodup_sortByLen _ (nodup_dedupFirst _)

theorem sum_map_le_of_subset {α : Type} [DecidableEq α] (f : α → ℚ)
    (l1 l2 : List α) (h1 : l1.Nodup) (h2 : l2.Nodup)
    (hsub : ∀ a ∈ l1, a ∈ l2) (hf : ∀ a ∈ l2, 0 ≤ f a) :
    (l1.map f).sum ≤ (l2.map f).sum := by
  rw [← List.sum_toFinset f h1, ← List.sum_toFinset f h2]
  apply Finset.sum_le_sum_of_subset_of_nonneg
  · intro a ha
    rw [List.mem_toFinset] at ha ⊢
    exact hsub a ha
  · intro a ha _
    exact hf a (List.mem_toFinset.mp ha)

theorem dfsPaths_mono {g g' : Graph} (hExt : Extends g g') (target : String) :
    ∀ (fuel : ℕ) (current : String) (path p : List String),
      p ∈ dfsPaths g target fuel current path →
      p ∈ dfsPaths g' target fuel current path := by
  intro fuel
  induction fuel with
  | zero =>
    intro current path p h
    simp [dfsPaths] at h
  | succ fuel ih =>
    intro current path p h
    simp only [dfsPaths] at h ⊢
    by_cases hc : current = target ∧ 1 < path.length
    · rw [if_pos hc] at h ⊢
      exact h
    · rw [if_neg hc] at h ⊢
      rw [List.mem_flatMap] at h ⊢
      obtain ⟨n, hn, hp⟩ := h
      refine ⟨n, ?_, ?_⟩
      · obtain ⟨s, hs⟩ := hExt current
        rw [hs]
        exact List.mem_append.mpr (Or.inl hn)
      · by_cases hnp : n ∈ path
        · rw [if_pos hnp] at hp
          simp at hp
        · rw [if_neg hnp] at hp ⊢
          exact ih n (path ++ [n]) p hp

theorem findWeightedPaths_mono {g g' : Graph} (hExt : Extends g g')
    (source target : String) (maxDepth : ℕ) (p : List String)
    (h : p ∈ findWeightedPaths source target g maxDepth) :
    p ∈ findWeightedPaths source target g' maxDepth := by
  rw [findWeightedPaths, mem_sortByLen, mem_dedupFirst] at h ⊢
  exact dfsPaths_mono hExt target _ _ _ p h

theorem pairOverlap_nonneg (a b : WeightedPath) : 0 ≤ pairOverlap a b := by
  unfold pairOverlap
  apply div_nonneg
  · exact_mod_cast Nat.zero_le _
  · exact_mod_cast Nat.zero_le _

theorem totalOverlapOf_nonneg (l : List WeightedPath) : 0 ≤ totalOverlapOf l := by
  induction l with
  | nil => simp [totalOverlapOf]
  | cons a rest ih =>
    simp only [totalOverlapOf]
    apply add_nonneg _ ih
    apply List.sum_nonneg
    intro x hx
    obtain ⟨b, _, rfl⟩ := List.mem_map.mp hx
    exact pairOverlap_nonneg a b

theorem calculatePathDiversity_bounds (l : List WeightedPath) :
    0 ≤ calculatePathDiversity l ∧ calculatePathDiversity l ≤ 1 := by
  unfold calculatePathDiversity
  split
  · norm_num
  · refine ⟨le_max_left 0 _, ?_⟩
    apply max_le (by norm_num)
    have hfrac : (0:ℚ) ≤
        (if 0 < ((l.length : ℚ) * ((l.length : ℚ) - 1)) / 2
          then totalOverlapOf l / (((l.length : ℚ) * ((l.length : ℚ) - 1)) / 2)
          else 0) := by
      split
      · exact div_nonneg (totalOverlapOf_nonneg l) (le_of_lt (by assumption))
      · exact le_refl 0
    linarith

theorem variance_nonneg (lengths : List ℚ) (avg : ℚ) :
    0 ≤ ((lengths.map (fun len => (len - avg) ^ 2)).sum) / (lengths.length : ℚ) := by
  apply div_nonneg
  · apply List.sum_nonneg
    intro x hx
    obtain ⟨b, _, rfl⟩ := List.mem_map.mp hx
    positivity
  · exact_mod_cast Nat.zero_le _

theorem confidence_blend_bounds (a b c : ℚ) (ha : 0 ≤ a ∧ a ≤ 1)
    (hb : 0 ≤ b ∧ b ≤ 1) (hc : 0 ≤ c ∧ c ≤ 1) :
    0 ≤ a * 0.4 + b * 0.4 + c * 0.2 ∧ a * 0.4 + b * 0.4 + c * 0.2 ≤ 1 := by
  constructor
  · nlinarith [ha.1, hb.1, hc.1]
  · nlinarith [ha.2, hb.2, hc.2]

theorem calculateConfidence_bounds (l : List WeightedPath) (d : ℚ)
    (hd0 : 0 ≤ d) (hd1 : d ≤ 1) :
    0 ≤ calculateConfidence l d ∧ calculateConfidence l d ≤ 1 := by
  unfold calculateConfidence
  split
  · norm_num
  · refine confidence_blend_bounds _ _ _ ⟨?_, min_le_left _ _⟩ ⟨hd0, hd1⟩ ⟨?_, ?_⟩
    · exact le_min (by norm_num) (by positivity)
    · have := variance_nonneg (l.map (fun wp => (wp.length : ℚ)))
        ((l.map (fun wp => (wp.length : ℚ))).sum /
          ((l.map (fun wp => (wp.length : ℚ))).length : ℚ))
      positivity
    · rw [div_le_one (by
        have := variance_nonneg (l.map (fun wp => (wp.length : ℚ)))
          ((l.map (fun wp => (wp.length : ℚ))).sum /
            ((l.map (fun wp => (wp.length : ℚ))).length : ℚ))
        linarith)]
      have := variance_nonneg (l.map (fun wp => (wp.length : ℚ)))
        ((l.map (fun wp => (wp.length : ℚ))).sum /
          ((l.map (fun wp => (wp.length : ℚ))).length : ℚ))
      linarith

theorem weight_map_sum_eq (paths : List (List String)) (d : ℚ) :
    ((paths.map (fun path =>
      { path := path, weight := d ^ (path.length - 1),
        length := path.length : WeightedPath })).map (fun wp => wp.weight)).sum
    = (paths.map (fun p => d ^ (p.length - 1))).sum := by
  rw [List.map_map]
  rfl

theorem weight_sum_nonneg (paths : List (List String)) (d : ℚ) (hd : 0 ≤ d) :
    0 ≤ (paths.map (fun p => d ^ (p.length - 1))).sum := by
  apply List.sum_nonneg
  intro x hx
  obtain ⟨p, _, rfl⟩ := List.mem_map.mp hx
  exact pow_nonneg hd _

theorem pairwise_score_le_one (A B : String) (g : Graph)
    (opts : ConnectednessOptions) :
    (calculatePairwiseConnectedness A B g opts).score ≤ 1 := by
  simp only [calculatePairwiseConnectedness]
  split
  · norm_num
  · split
    · norm_num
    · exact min_le_left 1 _

theorem pairwise_score_nonneg (A B : String) (g : Graph)
    (opts : ConnectednessOptions) (hd : 0 ≤ opts.decayFactor) :
    0 ≤ (calculatePairwiseConnectedness A B g opts).score := by
  simp only [calculatePairwiseConnectedness]
  split
  · norm_num
  · split
    · norm_num
    · refine le_min (by norm_num) ?_
      rw [weight_map_sum_eq]
      exact weight_sum_nonneg _ _ hd

theorem pairwise_score_mono {g g' : Graph} (hExt : Extends g g')
    (A B : String) (opts : ConnectednessOptions) (hd : 0 ≤ opts.decayFactor) :
    (calculatePairwiseConnectedness A B g opts).score ≤
      (calculatePairwiseConnectedness A B g' opts).score := by
  by_cases hdir' : B ∈ g' A
  · have h1 : (calculatePairwiseConnectedness A B g' opts).score = 1 := by
      simp only [calculatePairwiseConnectedness]
      rw [if_pos hdir']
    rw [h1]
    exact pairwise_score_le_one A B g opts
  · have hdir : B ∉ g A := by
      intro h
      obtain ⟨s, hs⟩ := hExt A
      exact hdir' (by rw [hs]; exact List.mem_append.mpr (Or.inl h))
    simp only [calculatePairwiseConnectedness]
    rw [if_neg hdir, if_neg hdir']
    by_cases hP : findWeightedPaths A B g opts.maxDepth = []
    · rw [if_pos hP]
      split
      · norm_num
      · refine le_min (by norm_num) ?_
        rw [weight_map_sum_eq]
        exact weight_sum_nonneg _ _ hd
    · rw [if_neg hP]
      have hP' : findWeightedPaths A B g' opts.maxDepth ≠ [] := by
        obtain ⟨p, hp⟩ := List.exists_mem_of_ne_nil _ hP
        intro hnil
        have := findWeightedPaths_mono hExt A B opts.maxDepth p hp
        rw [hnil] at this
        exact List.not_mem_nil p this
      rw [if_neg hP']
      refine min_le_min (le_refl 1) ?_
      rw [weight_map_sum_eq, weight_map_sum_eq]
      apply sum_map_le_of_subset _ _ _
        (nodup_findWeightedPaths A B g opts.maxDepth)
        (nodup_findWeightedPaths A B g' opts.maxDepth)
        (fun p hp => findWeightedPaths_mono hExt A B opts.maxDepth p hp)
      intro p _
      exact pow_nonneg hd _

theorem extends_addEdge (g : Graph) (u v : String) :
    Extends g (addEdge g u v) := by
  intro x
  by_cases h : x = u
  · exact ⟨[v], by simp [addEdge, h]⟩
  · exact ⟨[], by simp [addEdge, h]⟩

theorem extends_trans {g g' g'' : Graph} (h1 : Extends g g')
    (h2 : Extends g' g'') : Extends g g'' := by
  intro v
  obtain ⟨s1, hs1⟩ := h1 v
  obtain ⟨s2, hs2⟩ := h2 v
  exact ⟨s1 ++ s2, by rw [hs2, hs1, List.append_assoc]⟩

theorem extends_addChain (g : Graph) (u : String) (ws : List String)
    (B : String) : Extends g (addChain g u ws B) := by
  induction ws generalizing g u with
  | nil => exact extends_addEdge g u B
  | cons w ws ih =>
    exact extends_trans (extends_addEdge g u w) (ih (addEdge g u w) w)

theorem pairwise_diversity_bounds (A B : String) (g : Graph)
    (opts : ConnectednessOptions) :
    0 ≤ (calculatePairwiseConnectedness A B g opts).diversityScore ∧
    (calculatePairwiseConnectedness A B g opts).diversityScore ≤ 1 := by
  simp only [calculatePairwiseConnectedness]
  split
  · norm_num
  · split
    · norm_num
    · exact calculatePathDiversity_bounds _

theorem pairwise_confidence_bounds (A B : String) (g : Graph)
    (opts : ConnectednessOptions) :
    0 ≤ (calculatePairwiseConnectedness A B g opts).confidence ∧
    (calculatePairwiseConnectedness A B g opts).confidence ≤ 1 := by
  simp only [calculatePairwiseConnectedness]
  split
  · norm_num
  · split
    · norm_num
    · exact calculateConfidence_bounds _ _
        (calculatePathDiversity_bounds _).1 (calculatePathDiversity_bounds _).2

theorem pairwiseResult_bounds (A B : String) (g : Graph)
    (opts : ConnectednessOptions) (hd0 : 0 ≤ opts.decayFactor) :
    0 ≤ (calculatePairwiseConnectedness A B g opts).score ∧
    (calculatePairwiseConnectedness A B g opts).score ≤ 1 ∧
    0 ≤ (calculatePairwiseConnectedness A B g opts).diversityScore ∧
    (calculatePairwiseConnectedness A B g opts).diversityScore ≤ 1 ∧
    0 ≤ (calculatePairwiseConnectedness A B g opts).confidence ∧
    (calculatePairwiseConnectedness A B g opts).confidence ≤ 1 :=
  ⟨pairwise_score_nonneg A B g opts hd0, pairwise_score_le_one A B g opts,
    (pairwise_diversity_bounds A B g opts).1, (pairwise_diversity_bounds A B g opts).2,
    (pairwise_confidence_bounds A B g opts).1, (pairwise_confidence_bounds A B g opts).2⟩

theorem sum_map_one (l : List ConnectednessResult) :
    (l.map (fun _ => (1:ℚ))).sum = (l.length : ℚ) := by
  induction l with
  | nil => simp
  | cons a t ih => simp [ih]; ring

theorem foldl_max_mem_bounds (lo hi : ℚ) :
    ∀ (l : List ℚ) (a : ℚ), lo ≤ a → a ≤ hi → (∀ x ∈ l, lo ≤ x ∧ x ≤ hi) →
      lo ≤ l.foldl max a ∧ l.foldl max a ≤ hi := by
  intro l
  induction l with
  | nil => intro a h1 h2 _; exact ⟨h1, h2⟩
  | cons b t ih =>
    intro a h1 h2 hl
    simp only [List.foldl_cons]
    refine ih (max a b) (le_trans h1 (le_max_left a b)) ?_ ?_
    · exact max_le h2 (hl b (List.mem_cons_self b t)).2
    · intro x hx
      exact hl x (List.mem_cons_of_mem b hx)

theorem listMaxQ_bounds (l : List ℚ) (hne : l ≠ []) (lo hi : ℚ)
    (h : ∀ x ∈ l, lo ≤ x ∧ x ≤ hi) : lo ≤ listMaxQ l ∧ listMaxQ l ≤ hi := by
  match l, hne with
  | a :: t, _ =>
    simp only [listMaxQ]
    exact foldl_max_mem_bounds lo hi t a
      (h a (List.mem_cons_self a t)).1 (h a (List.mem_cons_self a t)).2
      (fun x hx => h x (List.mem_cons_of_mem a hx))

theorem unionResult_bounds (A : String) (S : List String) (g : Graph)
    (opts : ConnectednessOptions) (hd0 : 0 ≤ opts.decayFactor) :
    0 ≤ (calculateUnionConnectedness A S g opts).score ∧
    (calculateUnionConnectedness A S g opts).score ≤ 1 ∧
    0 ≤ (calculateUnionConnectedness A S g opts).diversityScore ∧
    (calculateUnionConnectedness A S g opts).diversityScore ≤ 1 ∧
    0 ≤ (calculateUnionConnectedness A S g opts).confidence ∧
    (calculateUnionConnectedness A S g opts).confidence ≤ 1 := by
  simp only [calculateUnionConnectedness]
  set vr := (S.map (fun target =>
      calculatePairwiseConnectedness A target g opts)).filter
      (fun r => opts.confidenceThreshold ≤ r.confidence) with hvr
  have hmem : ∀ r ∈ vr, (0 ≤ r.score ∧ r.score ≤ 1) ∧
      (0 ≤ r.diversityScore ∧ r.diversityScore ≤ 1) ∧
      (0 ≤ r.confidence ∧ r.confidence ≤ 1) := by
    intro r hr
    rw [hvr] at hr
    have hr' := List.mem_of_mem_filter hr
    obtain ⟨t, _, rfl⟩ := List.mem_map.mp hr'
    obtain ⟨b1, b2, b3, b4, b5, b6⟩ := pairwiseResult_bounds A t g opts hd0
    exact ⟨⟨b1, b2⟩, ⟨b3, b4⟩, ⟨b5, b6⟩⟩
  by_cases hne : vr = []
  · rw [if_pos hne]
    norm_num
  · rw [if_neg hne]
    have hmapne : vr.map (fun r => r.score) ≠ [] := by
      simpa using hne
    have hscore := listMaxQ_bounds _ hmapne 0 1 (fun x hx => by
      obtain ⟨r, hr, rfl⟩ := List.mem_map.mp hx
      exact (hmem r hr).1)
    refine ⟨hscore.1, hscore.2, ?_, ?_, ?_, ?_⟩
    · show (0:ℚ) ≤ (if 0 < (vr.map (fun r => r.confidence)).sum then
        (vr.map (fun r => r.diversityScore * r.confidence)).sum /
          (vr.map (fun r => r.confidence)).sum else 0)
      by_cases hc : 0 < (vr.map (fun r => r.confidence)).sum
      · rw [if_pos hc]
        refine div_nonneg ?_ (le_of_lt hc)
        apply List.sum_nonneg
        intro x hx
        obtain ⟨r, hr, rfl⟩ := List.mem_map.mp hx
        exact mul_nonneg ((hmem r hr).2.1).1 ((hmem r hr).2.2).1
      · rw [if_neg hc]
    · show (if 0 < (vr.map (fun r => r.confidence)).sum then
        (vr.map (fun r => r.diversityScore * r.confidence)).sum /
          (vr.map (fun r => r.confidence)).sum else 0) ≤ 1
      by_cases hc : 0 < (vr.map (fun r => r.confidence)).sum
      · rw [if_pos hc, div_le_one hc]
        apply List.sum_le_sum
        intro r hr
        have h1 := mul_le_mul_of_nonneg_right ((hmem r hr).2.1).2 ((hmem r hr).2.2).1
        rw [one_mul] at h1
        exact h1
      · rw [if_neg hc]
        norm_num
    · show (0:ℚ) ≤ (vr.map (fun r => r.confidence)).sum / (vr.length : ℚ)
      apply div_nonneg
      · apply List.sum_nonneg
        intro x hx
        obtain ⟨r, hr, rfl⟩ := List.mem_map.mp hx
        exact ((hmem r hr).2.2).1
      · exact_mod_cast Nat.zero_le _
    · show (vr.map (fun r => r.confidence)).sum / (vr.length : ℚ) ≤ 1
      have hlenpos : (0:ℚ) < (vr.length : ℚ) := by
        exact_mod_cast List.length_pos.mpr hne
      rw [div_le_one hlenpos]
      have h1 : (vr.map (fun r => r.confidence)).sum ≤
          (vr.map (fun _ => (1:ℚ))).sum :=
        List.sum_le_sum (fun r hr => ((hmem r hr).2.2).2)
      have h2 := sum_map_one vr
      linarith

theorem mem_addIfAbsent {l : List String} {x u : String} :
    u ∈ (if x ∈ l then l else l ++ [x]) ↔ u ∈ l ∨ u = x := by
  split
  · rename_i hx
    constructor
    · exact Or.inl
    · rintro (h | rfl)
      · exact h
      · exact hx
  · simp [List.mem_append]

theorem nodup_addIfAbsent {l : List String} {x : String} (h : l.Nodup) :
    (if x ∈ l then l else l ++ [x]).Nodup := by
  split
  · exact h
  · rename_i hx
    simp [List.nodup_append, h, hx]

theorem mem_addSponsorEdge (g : Graph) (a b u v : String) :
    u ∈ addSponsorEdge g a b v ↔
      u ∈ g v ∨ (v = b ∧ u = a) ∨ (v = a ∧ u = b) := by
  by_cases hva : v = a <;> by_cases hvb : v = b <;> by_cases hab : a = b <;>
    simp only [addSponsorEdge, hva, hvb, hab, if_pos rfl, if_neg, mem_addIfAbsent] <;>
    simp_all [mem_addIfAbsent]

theorem nodup_addSponsorEdge (g : Graph) (a b : String)
    (h : ∀ v, (g v).Nodup) (v : String) : (addSponsorEdge g a b v).Nodup := by
  by_cases hva : v = a <;> by_cases hvb : v = b <;> by_cases hab : a = b <;>
    simp only [addSponsorEdge, hva, hvb, hab, if_pos rfl, if_neg] <;>
    first
      | exact nodup_addIfAbsent (nodup_addIfAbsent (h _))
      | exact nodup_addIfAbsent (h _)
      | exact h _
      | simp_all [nodup_addIfAbsent, h]

theorem sym_addSponsorEdge (g : Graph) (a b : String)
    (h : ∀ u v, u ∈ g v ↔ v ∈ g u) (u v : String) :
    u ∈ addSponsorEdge g a b v ↔ v ∈ addSponsorEdge g a b u := by
  rw [mem_addSponsorEdge, mem_addSponsorEdge, h u v]
  tauto

theorem noSelf_addSponsorEdge (g : Graph) (a b : String) (hab : a ≠ b)
    (h : ∀ v, v ∉ g v) (v : String) : v ∉ addSponsorEdge g a b v := by
  rw [mem_addSponsorEdge]
  rintro (hv | ⟨rfl, rfl⟩ | ⟨rfl, rfl⟩)
  · exact h v hv
  · exact hab rfl
  · exact hab rfl

theorem foldl_addSponsorEdge_pres (P : Graph → Prop) (Q : String → String → Prop)
    (hstep : ∀ g a b, P g → Q a b → P (addSponsorEdge g a b)) :
    ∀ (l : List (String × List String)), (∀ e ∈ l, ∀ s ∈ e.2, Q e.1 s) →
      ∀ g, P g →
        P (l.foldl (fun g entry =>
            entry.2.foldl (fun g sponsor => addSponsorEdge g entry.1 sponsor) g) g) := by
  have inner : ∀ (a : String) (ss : List String), (∀ s ∈ ss, Q a s) →
      ∀ g, P g → P (ss.foldl (fun g sponsor => addSponsorEdge g a sponsor) g) := by
    intro a ss
    induction ss with
    | nil => intro _ g hg; exact hg
    | cons s ss ih =>
      intro hQ g hg
      simp only [List.foldl_cons]
      exact ih (fun x hx => hQ x (List.mem_cons_of_mem s hx))
        (addSponsorEdge g a s) (hstep g a s hg (hQ s (List.mem_cons_self s ss)))
  intro l
  induction l with
  | nil => intro _ g hg; exact hg
  | cons e l ih =>
    intro hQ g hg
    simp only [List.foldl_cons]
    exact ih (fun x hx => hQ x (List.mem_cons_of_mem e hx)) _
      (inner e.1 e.2 (hQ e (List.mem_cons_self e l)) g hg)

theorem buildSponsorGraph_sym (herData : List (String × List String))
    (u v : String) :
    u ∈ buildSponsorGraph herData v ↔ v ∈ buildSponsorGraph herData u := by
  have := foldl_addSponsorEdge_pres
    (fun g => ∀ u v, u ∈ g v ↔ v ∈ g u) (fun _ _ => True)
    (fun g a b hg _ => sym_addSponsorEdge g a b hg)
    herData (fun _ _ _ _ => trivial) (fun _ => []) (by simp)
  exact this u v

theorem buildSponsorGraph_nodup (herData : List (String × List String))
    (v : String) : (buildSponsorGraph herData v).Nodup := by
  have := foldl_addSponsorEdge_pres
    (fun g => ∀ v, (g v).Nodup) (fun _ _ => True)
    (fun g a b hg _ => nodup_addSponsorEdge g a b hg)
    herData (fun _ _ _ _ => trivial) (fun _ => []) (by simp)
  exact this v

theorem buildSponsorGraph_noSelf (herData : List (String × List String))
    (hok : ∀ e ∈ herData, e.1 ∉ e.2) (v : String) :
    v ∉ buildSponsorGraph herData v := by
  have := foldl_addSponsorEdge_pres
    (fun g => ∀ v, v ∉ g v) (fun a b => a ≠ b)
    (fun g a b hg hab => noSelf_addSponsorEdge g a b hab hg)
    herData (fun e he s hs heq => hok e he (heq ▸ hs)) (fun _ => []) (by simp)
  exact this v

end Connectedness

namespace SafetyTiers

theorem updateDecayedImpact_idem (r : SafetyTierResult) (now : ℝ) :
    updateDecayedImpact (updateDecayedImpact r now) now = updateDecayedImpact r now := by
  cases r with
  | mk imp tier fr dt app =>
    cases dt with
    | none => rfl
    | some timer => rfl

theorem updateDecayedImpact_strictAnti (r : SafetyTierResult) (timer : DecayTimer)
    (hdt : r.decayTimer = some timer) (hI : 0 < timer.initialImpact)
    (hH : 0 < timer.halfLifeHours) (now1 now2 : ℝ) (hlt : now1 < now2) :
    (updateDecayedImpact r now2).impactScore < (updateDecayedImpact r now1).impactScore := by
  cases r with
  | mk imp tier fr dt app =>
    cases dt with
    | none => simp at hdt
    | some t =>
      obtain rfl : timer = t := by simpa using hdt.symm
      simp only [updateDecayedImpact]
      have hc : (0:ℝ) < 1000 * 60 * 60 := by norm_num
      have he : (now1 - timer.startTime) / (1000 * 60 * 60) / timer.halfLifeHours <
          (now2 - timer.startTime) / (1000 * 60 * 60) / timer.halfLifeHours := by
        apply (div_lt_div_iff_of_pos_right hH).mpr
        apply (div_lt_div_iff_of_pos_right hc).mpr
        linarith
      have hpow : (0.5:ℝ) ^ ((now2 - timer.startTime) / (1000 * 60 * 60) / timer.halfLifeHours) <
          (0.5:ℝ) ^ ((now1 - timer.startTime) / (1000 * 60 * 60) / timer.halfLifeHours) :=
        Real.rpow_lt_rpow_of_exponent_gt (by norm_num) (by norm_num) he
      exact mul_lt_mul_of_pos_left hpow hI

theorem updateDecayedImpact_halfLife (r : SafetyTierResult) (timer : DecayTimer)
    (hdt : r.decayTimer = some timer) (hH : timer.halfLifeHours ≠ 0) :
    (updateDecayedImpact r
        (timer.startTime + timer.halfLifeHours * (1000 * 60 * 60))).impactScore =
      timer.initialImpact / 2 := by
  cases r with
  | mk imp tier fr dt app =>
    cases dt with
    | none => simp at hdt
    | some t =>
      obtain rfl : timer = t := by simpa using hdt.symm
      simp only [updateDecayedImpact]
      have hexp : (timer.startTime + timer.halfLifeHours * (1000 * 60 * 60) - timer.startTime) /
          (1000 * 60 * 60) / timer.halfLifeHours = 1 := by
        field_simp
      rw [hexp, Real.rpow_one]
      ring

end SafetyTiers

namespace CreditFlow

theorem sigmoid_pos (x : ℝ) : 0 < sigmoid x := by
  unfold sigmoid
  positivity

theorem calculateCreditAward_zero_confidence (event : EarnEvent)
    (params : CreditParameters) (h : event.evidence_confidence = 0) :
    calculateCreditAward event params = 0 := by
  simp only [calculateCreditAward, h]
  norm_num

theorem calculateCreditAward_zero_diversity (event : EarnEvent)
    (params : CreditParameters) (h : event.diversity_factor = 0) :
    calculateCreditAward event params = 0 := by
  simp only [calculateCreditAward, h]
  norm_num

theorem clamp01_mono {p p' : ℚ} (h : p ≤ p') :
    max 0 (min 1 p) ≤ max 0 (min 1 p') :=
  max_le_max (le_refl 0) (min_le_min (le_refl 1) h)

theorem calculateCreditAward_mono_proximity (event : EarnEvent)
    (params : CreditParameters) (p p' : ℚ)
    (hbase : 0 ≤ event.action.base_award) (hbeta : 0 ≤ params.beta1)
    (hpp : p ≤ p') :
    calculateCreditAward { event with proximity_score := p } params ≤
      calculateCreditAward { event with proximity_score := p' } params := by
  simp only [calculateCreditAward]
  apply max_le_max (le_refl 0)
  have hK : (0:ℝ) ≤ ((event.action.base_award : ℚ) : ℝ) *
      ((max 0 (min 1 event.evidence_confidence) : ℚ) : ℝ) *
      ((max 0 (min 1 event.diversity_factor) : ℚ) : ℝ) := by
    apply mul_nonneg (mul_nonneg ?_ ?_) ?_
    · exact_mod_cast hbase
    · exact_mod_cast le_max_left 0 _
    · exact_mod_cast le_max_left 0 _
  have hpf : (params.beta0 : ℝ) +
      (params.beta1 : ℝ) * ((max 0 (min 1 p) : ℚ) : ℝ) ≤
      (params.beta0 : ℝ) + (params.beta1 : ℝ) * ((max 0 (min 1 p') : ℚ) : ℝ) := by
    have hcl : ((max 0 (min 1 p) : ℚ) : ℝ) ≤ ((max 0 (min 1 p') : ℚ) : ℝ) := by
      exact_mod_cast clamp01_mono hpp
    have hb : (0:ℝ) ≤ (params.beta1 : ℝ) := by exact_mod_cast hbeta
    nlinarith
  have hS : (0:ℝ) ≤ sigmoid
      ((params.theta - event.branch_avg_credits / params.C_max : ℚ) : ℝ) :=
    (sigmoid_pos _).le
  calc ((event.action.base_award : ℚ) : ℝ) *
        ((max 0 (min 1 event.evidence_confidence) : ℚ) : ℝ) *
        ((max 0 (min 1 event.diversity_factor) : ℚ) : ℝ) *
        ((params.beta0 : ℝ) + (params.beta1 : ℝ) * ((max 0 (min 1 p) : ℚ) : ℝ)) *
        sigmoid ((params.theta - event.branch_avg_credits / params.C_max : ℚ) : ℝ)
      ≤ ((event.action.base_award : ℚ) : ℝ) *
        ((max 0 (min 1 event.evidence_confidence) : ℚ) : ℝ) *
        ((max 0 (min 1 event.diversity_factor) : ℚ) : ℝ) *
        ((params.beta0 : ℝ) + (params.beta1 : ℝ) * ((max 0 (min 1 p') : ℚ) : ℝ)) *
        sigmoid ((params.theta - event.branch_avg_credits / params.C_max : ℚ) : ℝ) := by
        exact mul_le_mul_of_nonneg_right (mul_le_mul_of_nonneg_left hpf hK) hS

theorem totalEarningsOf_shift (params : CreditParameters) :
    ∀ (l : List EarnEvent) (init : ℝ),
      l.foldl (fun sum event =>
        if (validateEarnEvent event params).valid then
          sum + calculateCreditAward event params
        else sum) init =
      init + totalEarningsOf l params := by
  intro l
  induction l with
  | nil => intro init; simp [totalEarningsOf]
  | cons e l ih =>
    intro init
    simp only [totalEarningsOf, List.foldl_cons] at *
    by_cases hv : (validateEarnEvent e params).valid
    · simp only [if_pos hv]
      rw [ih (init + calculateCreditAward e params),
        ih (0 + calculateCreditAward e params)]
      ring
    · simp only [if_neg hv]
      rw [ih init]

theorem totalEarningsOf_skip_invalid (params : CreditParameters)
    (l1 l2 : List EarnEvent) (event : EarnEvent)
    (h : (validateEarnEvent event params).valid = false) :
    totalEarningsOf (l1 ++ event :: l2) params = totalEarningsOf (l1 ++ l2) params := by
  unfold totalEarningsOf
  rw [List.foldl_append, List.foldl_append, List.foldl_cons, h]
  simp

theorem updateCreditBalance_earn_history (balance : CreditBalance)
    (earn_events : List EarnEvent) (spend_events : List SpendEvent)
    (current_epoch epoch_duration_hours : ℚ) (params : CreditParameters) :
    (updateCreditBalance balance earn_events spend_events current_epoch
        epoch_duration_hours params).earn_history =
      balance.earn_history ++ earn_events := rfl

theorem updateCreditBalance_balance_skip_invalid (balance : CreditBalance)
    (l1 l2 : List EarnEvent) (event : EarnEvent)
    (spend_events : List SpendEvent)
    (current_epoch epoch_duration_hours : ℚ) (params : CreditParameters)
    (h : (validateEarnEvent event params).valid = false) :
    (updateCreditBalance balance (l1 ++ event :: l2) spend_events current_epoch
        epoch_duration_hours params).balance =
      (updateCreditBalance balance (l1 ++ l2) spend_events current_epoch
        epoch_duration_hours params).balance := by
  simp only [updateCreditBalance]
  rw [totalEarningsOf_skip_invalid params l1 l2 event h]

theorem prod_mem01 (l : List ℚ) (h : ∀ x ∈ l, 0 ≤ x ∧ x ≤ 1) :
    0 ≤ l.prod ∧ l.prod ≤ 1 := by
  induction l with
  | nil => simp
  | cons a t ih =>
    have ha := h a (List.mem_cons_self a t)
    have ht := ih (fun x hx => h x (List.mem_cons_of_mem a hx))
    simp only [List.prod_cons]
    constructor
    · exact mul_nonneg ha.1 ht.1
    · have := mul_le_mul ha.2 ht.2 ht.1 zero_le_one
      simpa using this

theorem foldl_mul_eq_prod (f : String → ℚ) :
    ∀ (l : List String) (init : ℚ),
      l.foldl (fun acc s => acc * f s) init = init * (l.map f).prod := by
  intro l
  induction l with
  | nil => intro init; simp
  | cons a t ih =>
    intro init
    simp only [List.foldl_cons, List.map_cons, List.prod_cons]
    rw [ih]
    ring

theorem prod_le_factor (f : String → ℚ)
    (hf : ∀ x, 0 ≤ f x ∧ f x ≤ 1) :
    ∀ (l : List String) (s : String), s ∈ l → (l.map f).prod ≤ f s := by
  intro l
  induction l with
  | nil => intro s hs; simp at hs
  | cons a t ih =>
    intro s hs
    simp only [List.map_cons, List.prod_cons]
    rcases List.mem_cons.mp hs with rfl | hs
    · have hp := prod_mem01 (t.map f) (by
        intro x hx
        obtain ⟨y, _, rfl⟩ := List.mem_map.mp hx
        exact hf y)
      calc f s * (t.map f).prod ≤ f s * 1 :=
          mul_le_mul_of_nonneg_left hp.2 (hf s).1
        _ = f s := mul_one _
    · have h1 : f a * (t.map f).prod ≤ 1 * (t.map f).prod := by
        apply mul_le_mul_of_nonneg_right (hf a).2
        exact (prod_mem01 (t.map f) (by
          intro x hx
          obtain ⟨y, _, rfl⟩ := List.mem_map.mp hx
          exact hf y)).1
      rw [one_mul] at h1
      exact le_trans h1 (ih s hs)

end CreditFlow

namespace Connectedness

/-- C2 counterexample: with an empty sponsor graph and distinct endpoints the
pairwise computation finds zero paths (`pathCount = 0`, which is at most one
path), yet it returns `diversityScore = 0`, not the claimed `1.0`. -/
theorem diversity_zero_paths_counterexample :
    (calculatePairwiseConnectedness "a" "b" (fun _ => []) DEFAULT_OPTIONS).pathCount
      = 0 ∧
    (calculatePairwiseConnectedness "a" "b" (fun _ => []) DEFAULT_OPTIONS).diversityScore
      = 0 ∧
    (calculatePairwiseConnectedness "a" "b" (fun _ => []) DEFAULT_OPTIONS).diversityScore
      ≠ 1 :=
  ⟨rfl, rfl, show (0:ℚ) ≠ 1 by norm_num⟩

/-- C2 (amended): the diversity score is 1.0 when the pairwise computation
finds exactly one path (including the direct-edge short-circuit), but it is
0.0 — not 1.0 — when it finds zero paths. -/
theorem diversityScore_few_paths_amended (g : Graph) (A B : String)
    (opts : ConnectednessOptions) :
    ((calculatePairwiseConnectedness A B g opts).pathCount = 1 →
      (calculatePairwiseConnectedness A B g opts).diversityScore = 1) ∧
    ((calculatePairwiseConnectedness A B g opts).pathCount = 0 →
      (calculatePairwiseConnectedness A B g opts).diversityScore = 0) := by
  simp only [calculatePairwiseConnectedness]
  split
  · exact ⟨fun _ => rfl, fun h => by simp at h⟩
  · split
    · exact ⟨fun h => by simp at h, fun _ => rfl⟩
    · rename_i hne
      constructor
      · intro h
        have h' : (findWeightedPaths A B g opts.maxDepth).length = 1 := h
        show calculatePathDiversity _ = 1
        unfold calculatePathDiversity
        rw [if_pos (by rw [List.length_map]; omega)]
      · intro h
        have h0 : findWeightedPaths A B g opts.maxDepth = [] :=
          List.length_eq_zero.mp h
        exact absurd h0 hne

/-- C2 witness: a direct edge yields exactly one path and diversity 1.0. -/
theorem diversityScore_few_paths_witness :
    (calculatePairwiseConnectedness "a" "b"
      (fun v => if v = "a" then ["b"] else []) DEFAULT_OPTIONS).pathCount = 1 ∧
    (calculatePairwiseConnectedness "a" "b"
      (fun v => if v = "a" then ["b"] else []) DEFAULT_OPTIONS).diversityScore = 1 :=
  ⟨rfl, (diversityScore_few_paths_amended
    (fun v => if v = "a" then ["b"] else []) "a" "b" DEFAULT_OPTIONS).1 rfl⟩

/-- C3 counterexample: a participant declaring itself as its own sponsor
produces a self-edge, so `buildSponsorGraph` does not guarantee the no-self-edge
invariant for every input. -/
theorem buildSponsorGraph_self_edge_counterexample :
    "a" ∈ buildSponsorGraph [("a", ["a"])] "a" := by
  simp [buildSponsorGraph, addSponsorEdge]

/-- C3 (amended): the graph returned by `buildSponsorGraph` is symmetric and
each neighbour list is duplicate-free for every input; it has no self-edges
provided no participant declares itself as its own sponsor. -/
theorem buildSponsorGraph_invariants_amended
    (herData : List (String × List String)) :
    (∀ u v, u ∈ buildSponsorGraph herData v ↔ v ∈ buildSponsorGraph herData u) ∧
    (∀ v, (buildSponsorGraph herData v).Nodup) ∧
    ((∀ e ∈ herData, e.1 ∉ e.2) → ∀ v, v ∉ buildSponsorGraph herData v) :=
  ⟨buildSponsorGraph_sym herData, buildSponsorGraph_nodup herData,
    fun hok => buildSponsorGraph_noSelf herData hok⟩

/-- C3 witness: on a concrete self-declaration-free input the symmetry and
no-self-edge properties are realized. -/
theorem buildSponsorGraph_invariants_witness :
    ("c" ∈ buildSponsorGraph [("b", ["c"])] "b" ↔
      "b" ∈ buildSponsorGraph [("b", ["c"])] "c") ∧
    "b" ∉ buildSponsorGraph [("b", ["c"])] "b" :=
  ⟨(buildSponsorGraph_invariants_amended [("b", ["c"])]).1 "c" "b",
    (buildSponsorGraph_invariants_amended [("b", ["c"])]).2.2 (by decide) "b"⟩

/-- C6: extending the graph with an additional path from A to B through a
chain of interior nodes (and in fact any extension that only appends new
neighbours) never decreases the pairwise connectedness score, for any
non-negative decay factor (the default is 1/3). -/
theorem score_mono_add_path (g : Graph) (A B : String) (ws : List String)
    (opts : ConnectednessOptions) (hd : 0 ≤ opts.decayFactor) :
    (calculatePairwiseConnectedness A B g opts).score ≤
      (calculatePairwiseConnectedness A B (addChain g A ws B) opts).score :=
  pairwise_score_mono (extends_addChain g A ws B) A B opts hd

/-- C6 witness: adding the independent path a → w → b to the empty graph only
raises the a–b score. -/
theorem score_mono_add_path_witness :
    (calculatePairwiseConnectedness "a" "b" (fun _ => []) DEFAULT_OPTIONS).score ≤
      (calculatePairwiseConnectedness "a" "b"
        (addChain (fun _ => []) "a" ["w"] "b") DEFAULT_OPTIONS).score :=
  score_mono_add_path (fun _ => []) "a" "b" ["w"] DEFAULT_OPTIONS
    (by norm_num [DEFAULT_OPTIONS])

/-- C9: for every graph, endpoints and target set, the pairwise and union
connectedness results satisfy the declared bounds — score, diversity and
confidence in [0, 1] and a non-negative path count — for any non-negative
decay factor (the default is 1/3). -/
theorem connectednessResult_bounds_spec (g : Graph)
    (opts : ConnectednessOptions) (hd : 0 ≤ opts.decayFactor) :
    (∀ A B : String,
      0 ≤ (calculatePairwiseConnectedness A B g opts).score ∧
      (calculatePairwiseConnectedness A B g opts).score ≤ 1 ∧
      0 ≤ (calculatePairwiseConnectedness A B g opts).diversityScore ∧
      (calculatePairwiseConnectedness A B g opts).diversityScore ≤ 1 ∧
      0 ≤ (calculatePairwiseConnectedness A B g opts).confidence ∧
      (calculatePairwiseConnectedness A B g opts).confidence ≤ 1 ∧
      0 ≤ (calculatePairwiseConnectedness A B g opts).pathCount) ∧
    (∀ (A : String) (S : List String),
      0 ≤ (calculateUnionConnectedness A S g opts).score ∧
      (calculateUnionConnectedness A S g opts).score ≤ 1 ∧
      0 ≤ (calculateUnionConnectedness A S g opts).diversityScore ∧
      (calculateUnionConnectedness A S g opts).diversityScore ≤ 1 ∧
      0 ≤ (calculateUnionConnectedness A S g opts).confidence ∧
      (calculateUnionConnectedness A S g opts).confidence ≤ 1 ∧
      0 ≤ (calculateUnionConnectedness A S g opts).pathCount) := by
  constructor
  · intro A B
    obtain ⟨b1, b2, b3, b4, b5, b6⟩ := pairwiseResult_bounds A B g opts hd
    exact ⟨b1, b2, b3, b4, b5, b6, Nat.zero_le _⟩
  · intro A S
    obtain ⟨b1, b2, b3, b4, b5, b6⟩ := unionResult_bounds A S g opts hd
    exact ⟨b1, b2, b3, b4, b5, b6, Nat.zero_le _⟩

/-- C9 witness: the bounds instantiated on a concrete two-edge graph with the
default options. -/
theorem connectednessResult_bounds_witness :
    0 ≤ (calculatePairwiseConnectedness "a" "b"
      (fun v => if v = "a" then ["c"] else if v = "c" then ["a", "b"] else [])
      DEFAULT_OPTIONS).score ∧
    (calculatePairwiseConnectedness "a" "b"
      (fun v => if v = "a" then ["c"] else if v = "c" then ["a", "b"] else [])
      DEFAULT_OPTIONS).score ≤ 1 ∧
    (calculateUnionConnectedness "a" ["b", "c"]
      (fun v => if v = "a" then ["c"] else if v = "c" then ["a", "b"] else [])
      DEFAULT_OPTIONS).confidence ≤ 1 := by
  have h := connectednessResult_bounds_spec
    (fun v => if v = "a" then ["c"] else if v = "c" then ["a", "b"] else [])
    DEFAULT_OPTIONS (by norm_num [DEFAULT_OPTIONS])
  exact ⟨(h.1 "a" "b").1, (h.1 "a" "b").2.1, (h.2 "a" ["b", "c"]).2.2.2.2.2.1⟩

end Connectedness

namespace SafetyTiers

/-- C5: recomputing decay from the stored start time and initial impact is
idempotent at a fixed timestamp (same impact, tier, frictions and
multiplier); for positive initial impact and half-life the decayed impact is
strictly decreasing in elapsed time; and at elapsed time exactly one
half-life the decayed impact equals exactly half the initial impact. -/
theorem updateDecayedImpact_spec :
    (∀ (r : SafetyTierResult) (now : ℝ),
      updateDecayedImpact (updateDecayedImpact r now) now =
        updateDecayedImpact r now) ∧
    (∀ (r : SafetyTierResult) (timer : DecayTimer),
      r.decayTimer = some timer → 0 < timer.initialImpact →
      0 < timer.halfLifeHours → ∀ now1 now2 : ℝ, now1 < now2 →
        (updateDecayedImpact r now2).impactScore <
          (updateDecayedImpact r now1).impactScore) ∧
    (∀ (r : SafetyTierResult) (timer : DecayTimer),
      r.decayTimer = some timer → timer.halfLifeHours ≠ 0 →
        (updateDecayedImpact r
          (timer.startTime + timer.halfLifeHours * (1000 * 60 * 60))).impactScore =
          timer.initialImpact / 2) :=
  ⟨updateDecayedImpact_idem,
   fun r timer hdt hI hH now1 now2 hlt =>
     updateDecayedImpact_strictAnti r timer hdt hI hH now1 now2 hlt,
   fun r timer hdt hH => updateDecayedImpact_halfLife r timer hdt hH⟩

/-- C5 witness: on a concrete result with half-life 168 hours and initial
impact 1, decay strictly shrinks the impact and hits exactly 1/2 at the
half-life. -/
theorem updateDecayedImpact_spec_witness :
    (updateDecayedImpact
      { impactScore := 1, tier := SafetyTier.CRITICAL, frictions := [],
        decayTimer := some { halfLifeHours := 168, startTime := 0, initialImpact := 1, currentMultiplier := 1 },
        appealable := true } (168 * (1000 * 60 * 60))).impactScore <
      (updateDecayedImpact
        { impactScore := 1, tier := SafetyTier.CRITICAL, frictions := [],
          decayTimer := some { halfLifeHours := 168, startTime := 0, initialImpact := 1, currentMultiplier := 1 },
          appealable := true } 0).impactScore ∧
    (updateDecayedImpact
      { impactScore := 1, tier := SafetyTier.CRITICAL, frictions := [],
        decayTimer := some { halfLifeHours := 168, startTime := 0, initialImpact := 1, currentMultiplier := 1 },
        appealable := true } ((0:ℝ) + 168 * (1000 * 60 * 60))).impactScore =
      (1:ℝ) / 2 :=
  ⟨updateDecayedImpact_spec.2.1 _ _ rfl (by norm_num) (by norm_num)
      0 (168 * (1000 * 60 * 60)) (by norm_num),
   updateDecayedImpact_spec.2.2 _
     { halfLifeHours := 168, startTime := 0, initialImpact := 1, currentMultiplier := 1 }
     rfl (by norm_num)⟩

end SafetyTiers

namespace CreditFlow

/-- C4 counterexample: an earn event rejected by validation (here: an empty
witness list) is still appended to the earn history of the balance record
returned by `updateCreditBalance`, contradicting "rejected events are never
persisted". -/
theorem rejected_event_persisted_counterexample :
    (validateEarnEvent
      { helper := "h",
        action := { type := "other", base_award := 1, description := "d" },
        subject_set := ["s"], evidence_confidence := 1, diversity_factor := 1,
        proximity_score := 0, branch_avg_credits := 0, timestamp := 0,
        witnesses := [] } getDefaultCreditParameters).valid = false ∧
    ({ helper := "h",
       action := { type := "other", base_award := 1, description := "d" },
       subject_set := ["s"], evidence_confidence := 1, diversity_factor := 1,
       proximity_score := 0, branch_avg_credits := 0, timestamp := 0,
       witnesses := [] } : EarnEvent) ∈
      (updateCreditBalance
        { human := "h", balance := 0, last_updated_epoch := 0,
          earn_history := [], spend_history := [] }
        [{ helper := "h",
           action := { type := "other", base_award := 1, description := "d" },
           subject_set := ["s"], evidence_confidence := 1, diversity_factor := 1,
           proximity_score := 0, branch_avg_credits := 0, timestamp := 0,
           witnesses := [] }] [] 0 24 getDefaultCreditParameters).earn_history := by
  constructor
  · norm_num [validateEarnEvent]
  · rw [updateCreditBalance_earn_history]
    simp

/-- C4 (amended): an earn event rejected by validation contributes nothing to
the updated balance, but it is still appended — along with every submitted
event — to the earn history of the returned record. -/
theorem updateCreditBalance_invalid_event_amended (balance : CreditBalance)
    (l1 l2 : List EarnEvent) (event : EarnEvent)
    (spend_events : List SpendEvent)
    (current_epoch epoch_duration_hours : ℚ) (params : CreditParameters)
    (h : (validateEarnEvent event params).valid = false) :
    (updateCreditBalance balance (l1 ++ event :: l2) spend_events current_epoch
        epoch_duration_hours params).balance =
      (updateCreditBalance balance (l1 ++ l2) spend_events current_epoch
        epoch_duration_hours params).balance ∧
    (updateCreditBalance balance (l1 ++ event :: l2) spend_events current_epoch
        epoch_duration_hours params).earn_history =
      balance.earn_history ++ (l1 ++ event :: l2) :=
  ⟨updateCreditBalance_balance_skip_invalid balance l1 l2 event spend_events
      current_epoch epoch_duration_hours params h,
   updateCreditBalance_earn_history balance (l1 ++ event :: l2) spend_events
      current_epoch epoch_duration_hours params⟩

/-- C4 witness: the amended property instantiated on a concrete
witness-less (hence invalid) event. -/
theorem updateCreditBalance_invalid_event_witness :
    (updateCreditBalance
      { human := "h", balance := 0, last_updated_epoch := 0,
        earn_history := [], spend_history := [] }
      ([] ++ { helper := "h", action := { type := "other", base_award := 1, description := "d" }, subject_set := ["s"], evidence_confidence := 1, diversity_factor := 1, proximity_score := 0, branch_avg_credits := 0, timestamp := 0, witnesses := [] } :: []) [] 0 24 getDefaultCreditParameters).balance =
      (updateCreditBalance
        { human := "h", balance := 0, last_updated_epoch := 0,
          earn_history := [], spend_history := [] }
        ([] ++ []) [] 0 24 getDefaultCreditParameters).balance ∧
    (updateCreditBalance
      { human := "h", balance := 0, last_updated_epoch := 0,
        earn_history := [], spend_history := [] }
      ([] ++ { helper := "h", action := { type := "other", base_award := 1, description := "d" }, subject_set := ["s"], evidence_confidence := 1, diversity_factor := 1, proximity_score := 0, branch_avg_credits := 0, timestamp := 0, witnesses := [] } :: []) [] 0 24 getDefaultCreditParameters).earn_history =
      [] ++ ([] ++ { helper := "h", action := { type := "other", base_award := 1, description := "d" }, subject_set := ["s"], evidence_confidence := 1, diversity_factor := 1, proximity_score := 0, branch_avg_credits := 0, timestamp := 0, witnesses := [] } :: []) :=
  updateCreditBalance_invalid_event_amended
    { human := "h", balance := 0, last_updated_epoch := 0,
      earn_history := [], spend_history := [] }
    [] []
    { helper := "h",
      action := { type := "other", base_award := 1, description := "d" },
      subject_set := ["s"], evidence_confidence := 1, diversity_factor := 1,
      proximity_score := 0, branch_avg_credits := 0, timestamp := 0,
      witnesses := [] }
    [] 0 24 getDefaultCreditParameters (by norm_num [validateEarnEvent])

/-- C7 counterexample: with a negative base award (the type annotation
`w_a > 0` is not enforced) and a negative `beta0`, the award is strictly
decreasing in the proximity score even though `beta1 = 0.4 ≥ 0`, so the
monotonicity clause fails for unrestricted earn events. -/
theorem award_negative_base_counterexample :
    (0:ℚ) ≤ ({ getDefaultCreditParameters with beta0 := -2 } : CreditParameters).beta1 ∧
    ((0:ℚ) ≤ 1) ∧
    calculateCreditAward
      { helper := "h", action := { type := "other", base_award := -1, description := "d" }, subject_set := ["s"], evidence_confidence := 1, diversity_factor := 1, proximity_score := 1, branch_avg_credits := 50, timestamp := 0, witnesses := ["w"] }
      { getDefaultCreditParameters with beta0 := -2 } <
    calculateCreditAward
      { helper := "h", action := { type := "other", base_award := -1, description := "d" }, subject_set := ["s"], evidence_confidence := 1, diversity_factor := 1, proximity_score := 0, branch_avg_credits := 50, timestamp := 0, witnesses := ["w"] }
      { getDefaultCreditParameters with beta0 := -2 } := by
  refine ⟨by norm_num [getDefaultCreditParameters], by norm_num, ?_⟩
  simp only [calculateCreditAward, getDefaultCreditParameters]
  norm_num [sigmoid, Real.exp_zero]

/-- C7 (amended): the credit award is 0 whenever the event's evidence
confidence or diversity factor is 0; and with a non-negative base award (as
the data model's `w_a > 0` documents) and a non-negative proximity weight
`beta1`, the award is monotone non-decreasing in the proximity score with
all other fields fixed. -/
theorem calculateCreditAward_spec_amended (event : EarnEvent)
    (params : CreditParameters) :
    (event.evidence_confidence = 0 → calculateCreditAward event params = 0) ∧
    (event.diversity_factor = 0 → calculateCreditAward event params = 0) ∧
    (∀ p p' : ℚ, 0 ≤ event.action.base_award → 0 ≤ params.beta1 → p ≤ p' →
      calculateCreditAward { event with proximity_score := p } params ≤
        calculateCreditAward { event with proximity_score := p' } params) :=
  ⟨calculateCreditAward_zero_confidence event params,
   calculateCreditAward_zero_diversity event params,
   fun p p' hb h1 hpp =>
     calculateCreditAward_mono_proximity event params p p' hb h1 hpp⟩

/-- C7 witness: a zero-confidence event earns 0, and with the default
parameters the award at proximity 1 dominates the award at proximity 0. -/
theorem calculateCreditAward_spec_witness :
    calculateCreditAward
      { helper := "h", action := { type := "other", base_award := 1, description := "d" }, subject_set := ["s"], evidence_confidence := 0, diversity_factor := 1, proximity_score := 0, branch_avg_credits := 0, timestamp := 0, witnesses := ["w"] }
      getDefaultCreditParameters = 0 ∧
    calculateCreditAward
      { helper := "h", action := { type := "other", base_award := 1, description := "d" }, subject_set := ["s"], evidence_confidence := 1, diversity_factor := 1, proximity_score := 0, branch_avg_credits := 0, timestamp := 0, witnesses := ["w"] }
      getDefaultCreditParameters ≤
    calculateCreditAward
      { helper := "h", action := { type := "other", base_award := 1, description := "d" }, subject_set := ["s"], evidence_confidence := 1, diversity_factor := 1, proximity_score := 1, branch_avg_credits := 0, timestamp := 0, witnesses := ["w"] }
      getDefaultCreditParameters :=
  ⟨(calculateCreditAward_spec_amended
      { helper := "h", action := { type := "other", base_award := 1, description := "d" }, subject_set := ["s"], evidence_confidence := 0, diversity_factor := 1, proximity_score := 0, branch_avg_credits := 0, timestamp := 0, witnesses := ["w"] }
      getDefaultCreditParameters).1 rfl,
   (calculateCreditAward_spec_amended
      { helper := "h", action := { type := "other", base_award := 1, description := "d" }, subject_set := ["s"], evidence_confidence := 1, diversity_factor := 1, proximity_score := 0, branch_avg_credits := 0, timestamp := 0, witnesses := ["w"] }
      getDefaultCreditParameters).2.2 0 1 (by norm_num) (by norm_num [getDefaultCreditParameters]) (by norm_num)⟩

/-- C10: the credit engine's probabilistic-OR union connectedness
`1 − Π(1 − C(h,s))` lies in [0, 1], equals 0 for the empty subject set, and
dominates the clamped pairwise connectedness of every individual subject. -/
theorem unionConnectedness_spec (helper : String) (subject_set : List String)
    (pairwise_connectedness : List (String × ℚ)) :
    0 ≤ calculateUnionConnectedness helper subject_set pairwise_connectedness ∧
    calculateUnionConnectedness helper subject_set pairwise_connectedness ≤ 1 ∧
    (subject_set = [] →
      calculateUnionConnectedness helper subject_set pairwise_connectedness = 0) ∧
    (∀ s ∈ subject_set,
      max 0 (min 1 ((List.lookup (helper ++ "->" ++ s)
          pairwise_connectedness).getD 0)) ≤
        calculateUnionConnectedness helper subject_set pairwise_connectedness) := by
  by_cases hS : subject_set = []
  · subst hS
    refine ⟨le_refl 0, by norm_num [calculateUnionConnectedness], fun _ => rfl, ?_⟩
    intro s hs
    simp at hs
  · simp only [calculateUnionConnectedness, if_neg hS]
    set f : String → ℚ := fun subject =>
      1 - max 0 (min 1 ((List.lookup (helper ++ "->" ++ subject)
        pairwise_connectedness).getD 0)) with hf
    have hfb : ∀ x, 0 ≤ f x ∧ f x ≤ 1 := by
      intro x
      simp only [hf]
      constructor
      · have : max 0 (min 1 ((List.lookup (helper ++ "->" ++ x)
            pairwise_connectedness).getD 0)) ≤ 1 :=
          max_le zero_le_one (min_le_left 1 _)
        linarith
      · have : (0:ℚ) ≤ max 0 (min 1 ((List.lookup (helper ++ "->" ++ x)
            pairwise_connectedness).getD 0)) := le_max_left 0 _
        linarith
    have hfold : subject_set.foldl (fun product subject =>
        product * f subject) 1 = (subject_set.map f).prod := by
      rw [foldl_mul_eq_prod f subject_set 1, one_mul]
    rw [hfold]
    have hprod := prod_mem01 (subject_set.map f) (by
      intro x hx
      obtain ⟨y, _, rfl⟩ := List.mem_map.mp hx
      exact hfb y)
    refine ⟨le_max_left 0 _, max_le zero_le_one (min_le_left 1 _),
      fun h => absurd h hS, ?_⟩
    intro s hs
    have hle : (subject_set.map f).prod ≤ f s := prod_le_factor f hfb subject_set s hs
    have hclamp1 : max 0 (min 1 ((List.lookup (helper ++ "->" ++ s)
        pairwise_connectedness).getD 0)) ≤ 1 :=
      max_le zero_le_one (min_le_left 1 _)
    have hkey : max 0 (min 1 ((List.lookup (helper ++ "->" ++ s)
        pairwise_connectedness).getD 0)) ≤
        min 1 (1 - (subject_set.map f).prod) := by
      refine le_min hclamp1 ?_
      have : f s = 1 - max 0 (min 1 ((List.lookup (helper ++ "->" ++ s)
          pairwise_connectedness).getD 0)) := by simp only [hf]
      linarith
    exact le_trans hkey (le_max_right 0 _)

/-- C10 witness: the probabilistic-OR union on a concrete two-subject map
dominates subject s1's clamped pairwise connectedness and stays in bounds. -/
theorem unionConnectedness_spec_witness :
    0 ≤ calculateUnionConnectedness "h" ["s1", "s2"]
      [("h->s1", (1/2 : ℚ)), ("h->s2", (1/4 : ℚ))] ∧
    max 0 (min 1 ((List.lookup ("h" ++ "->" ++ "s1")
        [("h->s1", (1/2 : ℚ)), ("h->s2", (1/4 : ℚ))]).getD 0)) ≤
      calculateUnionConnectedness "h" ["s1", "s2"]
        [("h->s1", (1/2 : ℚ)), ("h->s2", (1/4 : ℚ))] :=
  ⟨(unionConnectedness_spec "h" ["s1", "s2"]
      [("h->s1", (1/2 : ℚ)), ("h->s2", (1/4 : ℚ))]).1,
   (unionConnectedness_spec "h" ["s1", "s2"]
      [("h->s1", (1/2 : ℚ)), ("h->s2", (1/4 : ℚ))]).2.2.2 "s1" (by decide)⟩

end CreditFlow

namespace CrossBranch

/-- C1 counterexample: the handler applies `reject` to a contract already in
the terminal status `completed` and flips it to `failed`, so terminal states
do admit outgoing transitions. -/
theorem contract_terminal_counterexample :
    ({ contract_id := "c", requesting_branch := "r", helping_branches := ["x"], issue_id := "i", scope := [], tasks := [], timebox_hours := 1, evidence_requirements := "e", credit_rewards := 1, status := ContractStatus.completed, signatures := [("x", "s")], created_at := 0, expires_at := 0 } : CrossBranchContract).status = ContractStatus.completed ∧
    handleBranchContract
      { contract_id := "c", requesting_branch := "r", helping_branches := ["x"], issue_id := "i", scope := [], tasks := [], timebox_hours := 1, evidence_requirements := "e", credit_rewards := 1, status := ContractStatus.completed, signatures := [("x", "s")], created_at := 0, expires_at := 0 }
      ContractAction.reject "x" "s" none =
      Except.ok
        { contract_id := "c", requesting_branch := "r", helping_branches := ["x"], issue_id := "i", scope := [], tasks := [], timebox_hours := 1, evidence_requirements := "e", credit_rewards := 1, status := ContractStatus.failed, signatures := [("x", "s")], created_at := 0, expires_at := 0 } ∧
    ContractStatus.failed ≠ ContractStatus.completed :=
  ⟨rfl, rfl, fun h => ContractStatus.noConfusion h⟩

/-- C1 (amended): contracts are created in `proposed`; an `approve` that
leaves some helping branch without a truthy signature keeps the status
unchanged (in particular `proposed` stays `proposed`), while an `approve`
that completes the signature set sets status `active`; `complete` with
missing or empty evidence is rejected with an error and the contract is not
updated, while `complete` with non-empty evidence sets `completed`.  However
terminal states are not enforced: `reject` always sets `failed`, `dispute`
always sets `disputed`, and the `approve`/`complete` transitions above fire
regardless of the current status, including from `completed` and `failed`. -/
theorem handleBranchContract_lifecycle_amended (c : CrossBranchContract)
    (branch_id signature : String) (ev : Option (List String)) :
    (∀ (cid rb : String) (hb : List String) (issue : Issue)
        (tasks : List String) (tb cr now : ℚ),
      (createCrossBranchContract cid rb hb issue tasks tb cr now).status =
        ContractStatus.proposed) ∧
    (allSigned c.helping_branches
        (setSignature c.signatures branch_id signature) = false →
      handleBranchContract c ContractAction.approve branch_id signature ev =
        Except.ok { c with
          signatures := setSignature c.signatures branch_id signature }) ∧
    (allSigned c.helping_branches
        (setSignature c.signatures branch_id signature) = true →
      handleBranchContract c ContractAction.approve branch_id signature ev =
        Except.ok { c with
          signatures := setSignature c.signatures branch_id signature,
          status := ContractStatus.active }) ∧
    (handleBranchContract c ContractAction.complete branch_id signature none =
      Except.error "Completion evidence required") ∧
    (handleBranchContract c ContractAction.complete branch_id signature
        (some []) = Except.error "Completion evidence required") ∧
    (∀ es : List String, es ≠ [] →
      handleBranchContract c ContractAction.complete branch_id signature
        (some es) = Except.ok { c with status := ContractStatus.completed }) ∧
    (handleBranchContract c ContractAction.reject branch_id signature ev =
      Except.ok { c with status := ContractStatus.failed }) ∧
    (handleBranchContract c ContractAction.dispute branch_id signature ev =
      Except.ok { c with status := ContractStatus.disputed }) := by
  refine ⟨fun _ _ _ _ _ _ _ _ => rfl, ?_, ?_, rfl, rfl, ?_, rfl, rfl⟩
  · intro hns
    simp only [handleBranchContract, hns, Bool.false_eq_true, if_false]
  · intro hs
    simp only [handleBranchContract, hs, if_true]
  · intro es hes
    simp only [handleBranchContract]
    rw [if_pos (List.length_pos.mpr hes)]

/-- C1 witness: on a concrete proposed contract with two helping branches,
the first `approve` leaves the signature set incomplete and the status
`proposed`, and `complete` without evidence is refused. -/
theorem handleBranchContract_lifecycle_witness :
    handleBranchContract
      { contract_id := "c", requesting_branch := "r", helping_branches := ["x", "y"], issue_id := "i", scope := [], tasks := [], timebox_hours := 1, evidence_requirements := "e", credit_rewards := 1, status := ContractStatus.proposed, signatures := [], created_at := 0, expires_at := 0 }
      ContractAction.approve "x" "s" none =
      Except.ok { contract_id := "c", requesting_branch := "r", helping_branches := ["x", "y"], issue_id := "i", scope := [], tasks := [], timebox_hours := 1, evidence_requirements := "e", credit_rewards := 1, status := ContractStatus.proposed, signatures := setSignature [] "x" "s", created_at := 0, expires_at := 0 } ∧
    handleBranchContract
      { contract_id := "c", requesting_branch := "r", helping_branches := ["x", "y"], issue_id := "i", scope := [], tasks := [], timebox_hours := 1, evidence_requirements := "e", credit_rewards := 1, status := ContractStatus.proposed, signatures := [], created_at := 0, expires_at := 0 }
      ContractAction.complete "x" "s" none =
      Except.error "Completion evidence required" :=
  ⟨(handleBranchContract_lifecycle_amended
      { contract_id := "c", requesting_branch := "r", helping_branches := ["x", "y"], issue_id := "i", scope := [], tasks := [], timebox_hours := 1, evidence_requirements := "e", credit_rewards := 1, status := ContractStatus.proposed, signatures := [], created_at := 0, expires_at := 0 }
      "x" "s" none).2.1 (by decide),
   (handleBranchContract_lifecycle_amended
      { contract_id := "c", requesting_branch := "r", helping_branches := ["x", "y"], issue_id := "i", scope := [], tasks := [], timebox_hours := 1, evidence_requirements := "e", credit_rewards := 1, status := ContractStatus.proposed, signatures := [], created_at := 0, expires_at := 0 }
      "x" "s" none).2.2.2.1⟩

/-- C8: on the worked escalation example (10-member branch, pairwise
connectedness 0.4 to every subject, severity 0.7, confidence 0.8, 5 open
needs, diversity 0.3, default weights and threshold), the escalation engine
reports `triggered = true` and its weighted components equal exactly
γ₁·(0.4·0.7·0.8), γ₂·(5/10) and γ₃·(1−0.3), totalling 0.3544. -/
theorem workedExample_escalation_spec :
    workedExampleEscalationScore.triggered = true ∧
    workedExampleEscalationScore.local_impact = 0.6 * (0.4 * 0.7 * 0.8) ∧
    workedExampleEscalationScore.need_pressure = 0.3 * (5 / 10) ∧
    workedExampleEscalationScore.diversity_penalty = 0.1 * (1 - 0.3) ∧
    workedExampleEscalationScore.total_score = 0.3544 := by
  simp [workedExampleEscalationScore, calculateEscalationScore,
    workedExampleBranch, workedExampleIssue, workedExampleConnectednessMap,
    getDefaultEscalationParameters, List.lookup, List.foldl]
  norm_num

end CrossBranch
